import Mathlib

/-
Verification development for the Stroyka expense-ledger bot.

The repository is a Telegram bot (aiogram 3) backed by a PostgreSQL schema of
three tables (categories, expenses, foreman_transactions).  This file gives a
shallow embedding of the persistent state and of the functions in
src/db/crud.py, src/bot/handlers.py and src/services/openai_service.py that
the verified properties concern, and proves or refutes each property.

Modelling conventions:
- monetary amounts (Python float / SQL Float) are embedded as exact rationals;
- SQL statements are embedded by their relational semantics over lists;
- integrity errors raised at session.flush() (foreign-key violation on
  expenses.category_id, unique violation on categories.name, both declared in
  src/db/models.py and the alembic migration) are embedded as `Except.error`;
- Python string methods .lower() / .strip() are embedded for the ASCII case
  map and ASCII whitespace, which is the fragment the proofs rely on.
-/

/- ── Python string primitives ───────────────────────────────────────────── -/

/-- ASCII whitespace recognised by the embedded str.strip(). -/
def pyIsSpace (c : Char) : Bool :=
  c == ' ' || c == '\t' || c == '\n' || c == '\r'

/-- Strip leading and trailing whitespace from a character list. -/
def stripChars (l : List Char) : List Char :=
  ((l.dropWhile pyIsSpace).reverse.dropWhile pyIsSpace).reverse

/-- Embedding of Python str.strip(). -/
def pyStrip (s : String) : String :=
  String.mk (stripChars s.data)

/-- Embedding of Python str.lower() on the ASCII range. -/
def pyCharLower (c : Char) : Char :=
  if 65 ≤ c.toNat ∧ c.toNat ≤ 90 then Char.ofNat (c.toNat + 32) else c

/-- Embedding of Python str.lower(), applied characterwise. -/
def pyLower (s : String) : String :=
  String.mk (s.data.map pyCharLower)

/-- Numeric value of a list of decimal digit characters. -/
def digitsToNat (l : List Char) : ℕ :=
  l.foldl (fun a c => a * 10 + (c.toNat - 48)) 0

/- ── JSON values (results of json.loads on the classifier output) ───────── -/

/-- JSON value as produced by Python json.loads (ints and floats collapsed
to one numeric constructor, embedded as exact rationals). -/
inductive JsonVal where
  | null
  | bool (b : Bool)
  | num (q : ℚ)
  | str (s : String)
  | arr (elems : List JsonVal)
  | obj (fields : List (String × JsonVal))

/-- Lookup in a JSON object; later duplicate keys win, as in Python dicts
built by json.loads. -/
def jsonObjLookup (fields : List (String × JsonVal)) (key : String) : Option JsonVal :=
  fields.foldl (fun acc kv => if kv.1 == key then some kv.2 else acc) none

/-- Embedding of Python dict.get(key): absent keys and stored JSON nulls both
come back as Python None, i.e. `none`. -/
def pyDictGet (fields : List (String × JsonVal)) (key : String) : Option JsonVal :=
  match jsonObjLookup fields key with
  | some JsonVal.null => none
  | some v => some v
  | none => none

/-- Embedding of Python dict.get(key, default): the default is used only when
the key is absent (a stored null is returned as-is). -/
def pyDictGetD (fields : List (String × JsonVal)) (key : String) (dflt : JsonVal) : JsonVal :=
  match jsonObjLookup fields key with
  | some v => v
  | none => dflt

/-- Python truthiness of a JSON value. -/
def pyTruthy : JsonVal → Bool
  | .null => false
  | .bool b => b
  | .num q => q != 0
  | .str s => s != ""
  | .arr l => !l.isEmpty
  | .obj l => !l.isEmpty

/-- Python `value == "literal"` for a dynamically typed JSON value. -/
def jsonEqStr (v : JsonVal) (s : String) : Bool :=
  match v with
  | .str t => t == s
  | _ => false

/-- Simple decimal parser standing in for Python float(str): optional sign,
digits, optional fractional part (scientific notation and the inf/nan forms
are not modelled; no proved statement depends on them). -/
def parseDecimalCore (l : List Char) : Option ℚ :=
  let sl : ℚ × List Char :=
    match l with
    | '-' :: r => (-1, r)
    | '+' :: r => (1, r)
    | _ => (1, l)
  let ds := sl.2.takeWhile Char.isDigit
  let rest := sl.2.dropWhile Char.isDigit
  if ds.isEmpty then none
  else
    match rest with
    | [] => some (sl.1 * (digitsToNat ds : ℚ))
    | '.' :: fr =>
        let fs := fr.takeWhile Char.isDigit
        let rest2 := fr.dropWhile Char.isDigit
        if rest2.isEmpty then
          some (sl.1 * ((digitsToNat ds : ℚ) + (digitsToNat fs : ℚ) / (10 : ℚ) ^ fs.length))
        else none
    | _ => none

/-- Embedding of Python float(·) applied to a JSON value: numbers pass
through, booleans coerce (float(True) = 1.0), numeric strings parse, and
every other shape raises TypeError / ValueError. -/
def pyFloat : JsonVal → Except Unit ℚ
  | .num q => .ok q
  | .bool b => .ok (if b then 1 else 0)
  | .str s => match parseDecimalCore (stripChars s.data) with
      | some q => .ok q
      | none => .error ()
  | _ => .error ()

/- ── Persistent state (src/db/models.py, alembic migration) ─────────────── -/

/-- Row of the categories table (src/db/models.py Category); the timestamp
column is irrelevant to every verified property and omitted. -/
structure Category where
  id : Nat
  name : String
deriving DecidableEq

/-- Row of the expenses table (src/db/models.py Expense).  The description is
whatever Python value the caller supplied (the dataclass is not runtime
typed), hence an optional JSON value. -/
structure Expense where
  id : Nat
  category_id : Nat
  amount : ℚ
  description : Option JsonVal
  telegram_user_id : Int
  is_foreman_expense : Bool

/-- Row of the foreman_transactions table (src/db/models.py
ForemanTransaction). -/
structure ForemanTransaction where
  id : Nat
  amount : ℚ
  description : Option JsonVal
  telegram_user_id : Int

/-- Whole database state, with the three serial id counters. -/
structure DBState where
  categories : List Category
  expenses : List Expense
  foremanTxs : List ForemanTransaction
  nextCatId : Nat
  nextExpId : Nat
  nextTxId : Nat

/-- Freshly created database (main.py drops and recreates all tables at
startup). -/
def emptyDB : DBState :=
  { categories := [], expenses := [], foremanTxs := [],
    nextCatId := 1, nextExpId := 1, nextTxId := 1 }

/-- Result shape of crud.get_foreman_balance. -/
structure ForemanBalance where
  total_given : ℚ
  total_spent : ℚ
  outstanding : ℚ
deriving DecidableEq

/- ── crud.py: categories ────────────────────────────────────────────────── -/

/-- Embedding of crud.get_category_by_name: SELECT the category whose
lower(name) equals name.lower(); no trimming is applied by the source. -/
def get_category_by_name (st : DBState) (name : String) : Option Category :=
  st.categories.find? (fun c => pyLower c.name == pyLower name)

/-- Embedding of crud.get_or_create_category: look up case-insensitively; on
a miss insert a row named name.strip().lower().  The insert can violate the
unique constraint on categories.name (src/db/models.py), which surfaces at
flush() as an integrity error, embedded as `Except.error`. -/
def get_or_create_category (st : DBState) (name : String) :
    Except Unit (Category × DBState) :=
  match get_category_by_name st name with
  | some c => .ok (c, st)
  | none =>
      let nm := pyLower (pyStrip name)
      if st.categories.any (fun c => c.name == nm) then .error ()
      else
        let c : Category := { id := st.nextCatId, name := nm }
        .ok (c, { st with categories := st.categories ++ [c],
                          nextCatId := st.nextCatId + 1 })

/- ── crud.py: expenses ──────────────────────────────────────────────────── -/

/-- Embedding of crud.add_expense: no validation whatsoever is performed on
the amount; the only failure mode is the foreign-key constraint on
expenses.category_id firing at flush() when the category does not exist. -/
def add_expense (st : DBState) (category_id : Nat) (amount : ℚ)
    (telegram_user_id : Int) (description : Option JsonVal)
    (is_foreman_expense : Bool) : Except Unit (Expense × DBState) :=
  if st.categories.any (fun c => c.id == category_id) then
    let e : Expense :=
      { id := st.nextExpId, category_id := category_id, amount := amount,
        description := description, telegram_user_id := telegram_user_id,
        is_foreman_expense := is_foreman_expense }
    .ok (e, { st with expenses := st.expenses ++ [e],
                      nextExpId := st.nextExpId + 1 })
  else .error ()

/-- Embedding of crud.get_expenses_summary: join expenses to categories,
filter by user, group by category name summing the amounts, order by name
ascending. -/
def summaryRows (st : DBState) (user_id : Int) : List (String × ℚ) :=
  (st.expenses.filter (fun e => e.telegram_user_id == user_id)).filterMap
    (fun e => (st.categories.find? (fun c => c.id == e.category_id)).map
      (fun c => (c.name, e.amount)))

/-- Grouping and ordering phase of crud.get_expenses_summary. -/
def get_expenses_summary (st : DBState) (user_id : Int) : List (String × ℚ) :=
  let rows := summaryRows st user_id
  let keys := List.insertionSort (fun a b => a ≤ b) (rows.map Prod.fst).dedup
  keys.map (fun k => (k, ((rows.filter (fun r => r.1 == k)).map Prod.snd).sum))

/-- Embedding of crud.get_total_expenses (COALESCE(SUM(amount), 0) over the
user's expenses). -/
def get_total_expenses (st : DBState) (user_id : Int) : ℚ :=
  ((st.expenses.filter (fun e => e.telegram_user_id == user_id)).map
    Expense.amount).sum

/- ── crud.py: foreman transactions and balance ──────────────────────────── -/

/-- Embedding of crud.add_foreman_transaction (no constraints can fire). -/
def add_foreman_transaction (st : DBState) (amount : ℚ)
    (telegram_user_id : Int) (description : Option JsonVal) :
    ForemanTransaction × DBState :=
  let tx : ForemanTransaction :=
    { id := st.nextTxId, amount := amount, description := description,
      telegram_user_id := telegram_user_id }
  (tx, { st with foremanTxs := st.foremanTxs ++ [tx],
                 nextTxId := st.nextTxId + 1 })

/-- Embedding of crud.add_foreman_expense: delegates to add_expense with
is_foreman_expense set to True.  No handler in src/bot/handlers.py calls
it. -/
def add_foreman_expense (st : DBState) (category_id : Nat) (amount : ℚ)
    (telegram_user_id : Int) (description : Option JsonVal) :
    Except Unit (Expense × DBState) :=
  add_expense st category_id amount telegram_user_id description true

/-- Embedding of crud.get_foreman_balance: total_given sums the user's
foreman transactions, total_spent sums ALL of the user's expenses (the query
filters only on telegram_user_id, not on is_foreman_expense), outstanding is
their difference. -/
def get_foreman_balance (st : DBState) (user_id : Int) : ForemanBalance :=
  let total_given :=
    ((st.foremanTxs.filter (fun t => t.telegram_user_id == user_id)).map
      ForemanTransaction.amount).sum
  let total_spent :=
    ((st.expenses.filter (fun e => e.telegram_user_id == user_id)).map
      Expense.amount).sum
  { total_given := total_given, total_spent := total_spent,
    outstanding := total_given - total_spent }

/- ── crud.py: expense management ────────────────────────────────────────── -/

/-- Embedding of crud.get_expense_by_id: lookup scoped both by expense id and
by owning user. -/
def get_expense_by_id (st : DBState) (expense_id : Nat) (user_id : Int) :
    Option Expense :=
  st.expenses.find? (fun e => e.id == expense_id && e.telegram_user_id == user_id)

/-- Embedding of crud.update_expense_amount: ownership-scoped lookup; on a
miss return nothing and leave the state untouched; on a hit overwrite the
amount in place (no validation of new_amount is performed by the source). -/
def update_expense_amount (st : DBState) (expense_id : Nat) (user_id : Int)
    (new_amount : ℚ) : Option Expense × DBState :=
  match get_expense_by_id st expense_id user_id with
  | none => (none, st)
  | some e =>
      (some { e with amount := new_amount },
       { st with expenses := st.expenses.map (fun x =>
          if x.id == expense_id && x.telegram_user_id == user_id then
            { x with amount := new_amount }
          else x) })

/-- Embedding of crud.delete_expense: ownership-scoped lookup, then removal;
returns whether a deletion occurred. -/
def delete_expense (st : DBState) (expense_id : Nat) (user_id : Int) :
    Bool × DBState :=
  match get_expense_by_id st expense_id user_id with
  | none => (false, st)
  | some _ =>
      (true, { st with expenses := st.expenses.filter (fun x =>
        !(x.id == expense_id && x.telegram_user_id == user_id)) })

/- ── services/openai_service.py ─────────────────────────────────────────── -/

/-- Embedding of the ParsedExpense dataclass.  Python dataclasses are not
runtime typed, so the type/category/description fields hold whatever JSON
value the classifier produced; amount has passed through float(·), hence a
rational when present. -/
structure ParsedExpense where
  type : JsonVal
  category : Option JsonVal
  amount : Option ℚ
  description : Option JsonVal

/-- Synthetic unrecognized item ParsedExpense(type="unknown"). -/
def synthUnknown : ParsedExpense :=
  { type := .str "unknown", category := none, amount := none, description := none }

/-- Outcome of the external classifier call inside parse_message.  `failure`
models the OpenAI API call itself raising (no try/except guards it in the
source); `output d` models a returned content string whose json.loads result
(after markdown-fence stripping) is d, with `none` for a JSONDecodeError. -/
inductive ClassifierOutcome where
  | failure
  | output (decoded : Option JsonVal)

/-- Body of the per-entry ParsedExpense construction in parse_message.
Non-dict entries raise AttributeError at entry.get; ill-typed amount values
raise inside float(·); both are embedded as `Except.error`. -/
def parseEntry (entry : JsonVal) : Except Unit ParsedExpense :=
  match entry with
  | .obj o => do
      let amt ← match pyDictGet o "amount" with
        | none => Except.ok (none : Option ℚ)
        | some v => do
            let q ← pyFloat v
            Except.ok (some q)
      Except.ok { type := pyDictGetD o "type" (.str "unknown"),
                  category := pyDictGet o "category",
                  amount := amt,
                  description := pyDictGet o "description" }
  | _ => .error ()

/-- Sequential construction of the items list (the for-loop in
parse_message); the first raising entry aborts the whole call. -/
def parseEntries : List JsonVal → Except Unit (List ParsedExpense)
  | [] => .ok []
  | e :: rest => do
      let p ← parseEntry e
      let ps ← parseEntries rest
      Except.ok (p :: ps)

/-- Python iteration over the decoded json.loads value: a dict is wrapped in
a singleton list first; a list iterates its elements; a string iterates its
characters (as one-character strings); every other value raises TypeError. -/
def jsonIterate (d : JsonVal) : Except Unit (List JsonVal) :=
  match d with
  | .obj o => .ok [JsonVal.obj o]
  | .arr l => .ok l
  | .str s => .ok (s.data.map (fun c => JsonVal.str (String.mk [c])))
  | _ => .error ()

/-- Embedding of services.openai_service.parse_message after the API call:
a JSONDecodeError is mapped to the single synthetic unrecognized item, an
empty items list is replaced by it as well, and every unhandled exception
(API failure, TypeError/AttributeError/ValueError on unexpected JSON shape)
propagates. -/
def parse_message (co : ClassifierOutcome) : Except Unit (List ParsedExpense) :=
  match co with
  | .failure => .error ()
  | .output none => .ok [synthUnknown]
  | .output (some d) => do
      let entries ← jsonIterate d
      let items ← parseEntries entries
      Except.ok (if items.isEmpty then [synthUnknown] else items)

/- ── bot/handlers.py ────────────────────────────────────────────────────── -/

/-- Embedding of handlers._parse_amount: drop spaces, turn commas into dots,
take the first regex match of digits with an optional fractional part, and
keep the value only if it is strictly positive. -/
def firstNumberMatch : List Char → Option ℚ
  | [] => none
  | c :: rest =>
      if c.isDigit then
        let ds := (c :: rest).takeWhile Char.isDigit
        let rest1 := (c :: rest).dropWhile Char.isDigit
        match rest1 with
        | '.' :: d2 :: r2 =>
            if d2.isDigit then
              let fs := (d2 :: r2).takeWhile Char.isDigit
              some ((digitsToNat ds : ℚ) + (digitsToNat fs : ℚ) / (10 : ℚ) ^ fs.length)
            else some (digitsToNat ds : ℚ)
        | _ => some (digitsToNat ds : ℚ)
      else firstNumberMatch rest

/-- Final guard of handlers._parse_amount. -/
def pyParseAmount (text : String) : Option ℚ :=
  let s := (text.data.filter (fun c => c != ' ')).map
    (fun c => if c == ',' then '.' else c)
  match firstNumberMatch s with
  | none => none
  | some v => if 0 < v then some v else none

/-- Loop body of handlers.handle_message over one classified item: expense
items missing amount or category are skipped, present ones go through
get_or_create_category and add_expense (is_foreman_expense left at its False
default); foreman_give items missing the amount are skipped, present ones go
through add_foreman_transaction; any other type only sets has_unknown.  A
non-string category raises inside name.lower(). -/
def applyParsedItem (st : DBState) (uid : Int) (p : ParsedExpense) :
    Except Unit DBState :=
  if jsonEqStr p.type "expense" then
    match p.amount, p.category with
    | some amt, some catv =>
        match catv with
        | .str s => do
            let cs ← get_or_create_category st s
            let es ← add_expense cs.2 cs.1.id amt uid p.description false
            Except.ok es.2
        | _ => .error ()
    | _, _ => .ok st
  else if jsonEqStr p.type "foreman_give" then
    match p.amount with
    | some amt => .ok (add_foreman_transaction st amt uid p.description).2
    | none => .ok st
  else .ok st

/-- Sequential application of a batch of classified items (the for-loop in
handle_message); an exception aborts the remainder. -/
def applyLoop (uid : Int) : DBState → List ParsedExpense → Except Unit DBState
  | st, [] => .ok st
  | st, p :: rest =>
      match applyParsedItem st uid p with
      | .ok st1 => applyLoop uid st1 rest
      | .error e => .error e

/-- State transition of one handle_message invocation: the session commits
only when the loop finished and recorded at least one item; an exception
leaves the session uncommitted, rolling every mutation back. -/
def handleMessageApply (st : DBState) (uid : Int)
    (items : List ParsedExpense) : DBState :=
  match applyLoop uid st items with
  | .ok st1 => st1
  | .error _ => st

/-- Category picked by settle_description: parsed.category when truthy,
otherwise the literal "без категории". -/
def settleCatName (p : ParsedExpense) : JsonVal :=
  match p.category with
  | some v => if pyTruthy v then v else .str "без категории"
  | none => .str "без категории"

/-- Description stored by settle_description: parsed.description when
truthy, otherwise the raw message text. -/
def settleDescr (p : ParsedExpense) (text : String) : Option JsonVal :=
  match p.description with
  | some v => if pyTruthy v then some v else some (.str text)
  | none => some (.str text)

/-- Loop body of handlers.settle_description over one classified item: the
category falls back to the literal "без категории" when absent or falsy,
items without an amount are skipped, and recording goes through add_expense
with the is_foreman_expense parameter left at its False default. -/
def settleItem (st : DBState) (uid : Int) (text : String) (p : ParsedExpense) :
    Except Unit DBState :=
  match p.amount with
  | none => .ok st
  | some amt =>
      match settleCatName p with
      | .str s => do
          let cs ← get_or_create_category st s
          let es ← add_expense cs.2 cs.1.id amt uid (settleDescr p text) false
          Except.ok es.2
      | _ => .error ()

/-- Sequential application of the settle_description loop. -/
def settleLoop (uid : Int) (text : String) :
    DBState → List ParsedExpense → Except Unit DBState
  | st, [] => .ok st
  | st, p :: rest =>
      match settleItem st uid text p with
      | .ok st1 => settleLoop uid text st1 rest
      | .error e => .error e

/-- State transition of one settle_description invocation (commit on normal
completion with at least one recorded item, rollback on an exception). -/
def settleApply (st : DBState) (uid : Int) (text : String)
    (items : List ParsedExpense) : DBState :=
  match settleLoop uid text st items with
  | .ok st1 => st1
  | .error _ => st

/-- Database states reachable through the bot handlers, starting from the
freshly reset database: free-form messages (handle_message), settlement
reports (settle_description), amount edits (cmd_edit, process_new_amount)
and deletions (cmd_delete, cb_confirm_delete).  No handler invokes
crud.add_foreman_expense. -/
inductive ReachState : DBState → Prop where
  | init : ReachState emptyDB
  | msg (st : DBState) (uid : Int) (items : List ParsedExpense) :
      ReachState st → ReachState (handleMessageApply st uid items)
  | settle (st : DBState) (uid : Int) (text : String)
      (items : List ParsedExpense) :
      ReachState st → ReachState (settleApply st uid text items)
  | edit (st : DBState) (eid : Nat) (uid : Int) (amt : ℚ) :
      ReachState st → ReachState (update_expense_amount st eid uid amt).2
  | del (st : DBState) (eid : Nat) (uid : Int) :
      ReachState st → ReachState (delete_expense st eid uid).2

/- ── C1: foreman balance ────────────────────────────────────────────────── -/

/-- Splitting a filtered amount sum by the is_foreman_expense flag. -/
lemma sum_amount_filter_flag_split (l : List Expense) (p : Expense → Bool) :
    ((l.filter p).map Expense.amount).sum =
      ((l.filter (fun e => p e && e.is_foreman_expense)).map Expense.amount).sum +
      ((l.filter (fun e => p e && !e.is_foreman_expense)).map Expense.amount).sum := by
  induction l with
  | nil => simp
  | cons a l ih =>
      by_cases hp : p a <;> by_cases hf : a.is_foreman_expense <;>
        simp [hp, hf, ih] <;> ring

/-- C1: for every user, get_foreman_balance returns total_given equal to the
sum of that user's ForemanTransaction amounts, total_spent equal to the sum
of ALL of that user's Expense amounts (regardless of the is_foreman_expense
flag — the flagged and unflagged parts both contribute), outstanding equal
to total_given minus total_spent exactly, and each sum is 0 when the
corresponding record set is empty. -/
theorem foreman_balance_correct (st : DBState) (uid : Int) :
    (get_foreman_balance st uid).total_given =
      ((st.foremanTxs.filter (fun t => t.telegram_user_id == uid)).map
        ForemanTransaction.amount).sum ∧
    (get_foreman_balance st uid).total_spent =
      ((st.expenses.filter (fun e => e.telegram_user_id == uid)).map
        Expense.amount).sum ∧
    (get_foreman_balance st uid).total_spent =
      ((st.expenses.filter (fun e => e.telegram_user_id == uid &&
          e.is_foreman_expense)).map Expense.amount).sum +
      ((st.expenses.filter (fun e => e.telegram_user_id == uid &&
          !e.is_foreman_expense)).map Expense.amount).sum ∧
    (get_foreman_balance st uid).outstanding =
      (get_foreman_balance st uid).total_given -
        (get_foreman_balance st uid).total_spent ∧
    (st.foremanTxs.filter (fun t => t.telegram_user_id == uid) = [] →
      (get_foreman_balance st uid).total_given = 0) ∧
    (st.expenses.filter (fun e => e.telegram_user_id == uid) = [] →
      (get_foreman_balance st uid).total_spent = 0) := by
  refine ⟨rfl, rfl, ?_, rfl, ?_, ?_⟩
  · exact sum_amount_filter_flag_split st.expenses _
  · intro h
    simp [get_foreman_balance, h]
  · intro h
    simp [get_foreman_balance, h]

/-- Witness for C1 at the freshly reset database: both record sets are empty
and both sums evaluate to 0. -/
theorem foreman_balance_correct_witness :
    (get_foreman_balance emptyDB 7).total_given = 0 ∧
    (get_foreman_balance emptyDB 7).total_spent = 0 :=
  ⟨(foreman_balance_correct emptyDB 7).2.2.2.2.1 rfl,
   (foreman_balance_correct emptyDB 7).2.2.2.2.2 rfl⟩

/- ── C3: add_expense validation ─────────────────────────────────────────── -/

/-- Database with a single category and no expenses, as produced by one
get_or_create_category call. -/
def oneCatDB : DBState :=
  { categories := [{ id := 1, name := "кирпич" }], expenses := [],
    foremanTxs := [], nextCatId := 2, nextExpId := 1, nextTxId := 1 }

/-- Counterexample to C3: add_expense called with the non-positive amount -1
does not fail with InvalidAmount — it persists the record and returns it
with an assigned identifier. -/
theorem add_expense_negative_amount_cex :
    add_expense oneCatDB 1 (-1) 7 none false =
      .ok ({ id := 1, category_id := 1, amount := -1, description := none,
             telegram_user_id := 7, is_foreman_expense := false },
           { categories := [{ id := 1, name := "кирпич" }],
             expenses := [{ id := 1, category_id := 1, amount := -1,
                            description := none, telegram_user_id := 7,
                            is_foreman_expense := false }],
             foremanTxs := [], nextCatId := 2, nextExpId := 2,
             nextTxId := 1 }) := rfl

/-- C3 amended: add_expense performs no amount validation at all — any
amount, including zero and negative values, is persisted and returned with
an assigned identifier whenever the category exists; a category_id that
references no existing category makes the flush fail with a foreign-key
integrity error (a generic storage failure, not an UnknownCategory
outcome). -/
theorem add_expense_amended (st : DBState) (cid : Nat) (amt : ℚ) (uid : Int)
    (d : Option JsonVal) (fl : Bool) :
    (st.categories.any (fun c => c.id == cid) = true →
      add_expense st cid amt uid d fl =
        .ok ({ id := st.nextExpId, category_id := cid, amount := amt,
               description := d, telegram_user_id := uid,
               is_foreman_expense := fl },
             { st with
                 expenses := st.expenses ++
                   [{ id := st.nextExpId, category_id := cid, amount := amt,
                      description := d, telegram_user_id := uid,
                      is_foreman_expense := fl }],
                 nextExpId := st.nextExpId + 1 })) ∧
    (st.categories.any (fun c => c.id == cid) = false →
      add_expense st cid amt uid d fl = .error ()) := by
  constructor <;> intro h <;> simp [add_expense, h]

/-- Witness for C3 amended: both branches at concrete inputs — amount -1 on
an existing category persists, and a dangling category id fails. -/
theorem add_expense_amended_witness :
    add_expense oneCatDB 1 (-1) 7 none false =
      .ok ({ id := 1, category_id := 1, amount := -1, description := none,
             telegram_user_id := 7, is_foreman_expense := false },
           { oneCatDB with
               expenses := [{ id := 1, category_id := 1, amount := -1,
                              description := none, telegram_user_id := 7,
                              is_foreman_expense := false }],
               nextExpId := 2 }) ∧
    add_expense emptyDB 1 5 7 none false = .error () :=
  ⟨(add_expense_amended oneCatDB 1 (-1) 7 none false).1 rfl,
   (add_expense_amended emptyDB 1 5 7 none false).2 rfl⟩

/- ── C4: update_expense_amount ──────────────────────────────────────────── -/

/-- Database with a single expense of amount 100 owned by user 7. -/
def oneExpDB : DBState :=
  { categories := [{ id := 1, name := "кирпич" }],
    expenses := [{ id := 1, category_id := 1, amount := 100,
                   description := none, telegram_user_id := 7,
                   is_foreman_expense := false }],
    foremanTxs := [], nextCatId := 2, nextExpId := 2, nextTxId := 1 }

/-- Counterexample to C4: on an existing, owned expense the new amount -5 is
not rejected — update_expense_amount overwrites the amount with the negative
value and returns the updated record. -/
theorem update_expense_amount_no_validation_cex :
    (update_expense_amount oneExpDB 1 7 (-5)).1 =
      some { id := 1, category_id := 1, amount := -5, description := none,
             telegram_user_id := 7, is_foreman_expense := false } ∧
    (update_expense_amount oneExpDB 1 7 (-5)).2.expenses =
      [{ id := 1, category_id := 1, amount := -5, description := none,
         telegram_user_id := 7, is_foreman_expense := false }] :=
  ⟨rfl, rfl⟩

/-- C4 amended: when the target expense exists and is owned by the
requesting user, update_expense_amount overwrites only the amount field in
place with whatever new_amount was passed (no positivity validation happens
at this layer — callers validate before calling) and returns the updated
record; erasing the amount column leaves the expense table unchanged, and
the other tables are untouched. -/
theorem update_expense_amount_amended (st : DBState) (eid : Nat) (uid : Int)
    (amt : ℚ) (e : Expense) (h : get_expense_by_id st eid uid = some e) :
    (update_expense_amount st eid uid amt).1 = some { e with amount := amt } ∧
    (update_expense_amount st eid uid amt).2.expenses.map
        (fun x => { x with amount := 0 }) =
      st.expenses.map (fun x => { x with amount := 0 }) ∧
    (update_expense_amount st eid uid amt).2.categories = st.categories ∧
    (update_expense_amount st eid uid amt).2.foremanTxs = st.foremanTxs := by
  refine ⟨?_, ?_, ?_, ?_⟩ <;> simp only [update_expense_amount, h]
  · rw [List.map_map]
    apply List.map_congr_left
    intro x _
    by_cases hc : (x.id == eid && x.telegram_user_id == uid) = true <;>
      simp [hc, Function.comp]

/-- Witness for C4 amended at a concrete owned expense. -/
theorem update_expense_amount_amended_witness :
    (update_expense_amount oneExpDB 1 7 250).1 =
      some { id := 1, category_id := 1, amount := 250, description := none,
             telegram_user_id := 7, is_foreman_expense := false } :=
  (update_expense_amount_amended oneExpDB 1 7 250
    { id := 1, category_id := 1, amount := 100, description := none,
      telegram_user_id := 7, is_foreman_expense := false } rfl).1

/- ── C5: not-found indistinguishability ─────────────────────────────────── -/

/-- Ownership-scoped lookup misses exactly when no expense matches both the
id and the user; update then reports nothing and leaves the state intact. -/
lemma update_expense_amount_miss (st : DBState) (eid : Nat) (uid : Int)
    (amt : ℚ) (h : ∀ e ∈ st.expenses, ¬(e.id = eid ∧ e.telegram_user_id = uid)) :
    update_expense_amount st eid uid amt = (none, st) := by
  have hg : get_expense_by_id st eid uid = none := by
    unfold get_expense_by_id
    rw [List.find?_eq_none]
    intro e he
    simp only [Bool.and_eq_true, beq_iff_eq, not_and]
    intro h1 h2
    exact h e he ⟨h1, h2⟩
  simp [update_expense_amount, hg]

/-- C5: update_expense_amount on an id that does not exist at all, and on an
id that exists but belongs to a different user, produce the same outcome —
nothing is returned, nothing is mutated — so the caller cannot distinguish
the two cases and the existence of another user's record is never
revealed. -/
theorem update_not_found_indistinguishable (st₁ st₂ : DBState)
    (eid₁ eid₂ : Nat) (uid : Int) (amt₁ amt₂ : ℚ)
    (h₁ : ∀ e ∈ st₁.expenses, e.id ≠ eid₁)
    (_h₂ : ∃ e ∈ st₂.expenses, e.id = eid₂)
    (h₂o : ∀ e ∈ st₂.expenses, e.id = eid₂ → e.telegram_user_id ≠ uid) :
    update_expense_amount st₁ eid₁ uid amt₁ = (none, st₁) ∧
    update_expense_amount st₂ eid₂ uid amt₂ = (none, st₂) ∧
    (update_expense_amount st₁ eid₁ uid amt₁).1 =
      (update_expense_amount st₂ eid₂ uid amt₂).1 := by
  have r₁ : update_expense_amount st₁ eid₁ uid amt₁ = (none, st₁) :=
    update_expense_amount_miss st₁ eid₁ uid amt₁
      (fun e he hc => h₁ e he hc.1)
  have r₂ : update_expense_amount st₂ eid₂ uid amt₂ = (none, st₂) :=
    update_expense_amount_miss st₂ eid₂ uid amt₂
      (fun e he hc => h₂o e he hc.1 hc.2)
  exact ⟨r₁, r₂, by rw [r₁, r₂]⟩

/-- Witness for C5: id 2 does not exist in the table, id 1 exists but is
owned by user 7 while user 9 asks; both updates return nothing. -/
theorem update_not_found_indistinguishable_witness :
    update_expense_amount oneExpDB 2 9 50 = (none, oneExpDB) ∧
    update_expense_amount oneExpDB 1 9 50 = (none, oneExpDB) ∧
    (update_expense_amount oneExpDB 2 9 50).1 =
      (update_expense_amount oneExpDB 1 9 50).1 :=
  update_not_found_indistinguishable oneExpDB oneExpDB 2 1 9 50 50
    (by intro e he; simp only [oneExpDB, List.mem_singleton] at he
        subst he; decide)
    ⟨{ id := 1, category_id := 1, amount := 100, description := none,
       telegram_user_id := 7, is_foreman_expense := false },
     by constructor
        · simp [oneExpDB]
        · rfl⟩
    (by intro e he; simp only [oneExpDB, List.mem_singleton] at he
        subst he; intro _; decide)

/- ── C9: _parse_amount positivity ───────────────────────────────────────── -/

/-- C9: the amount parser used by the /edit command and the inline edit flow
returns either nothing or a strictly positive number — never zero and never
a negative value — so every amount it passes onward is strictly positive. -/
theorem parse_amount_positive (s : String) (q : ℚ)
    (h : pyParseAmount s = some q) : 0 < q := by
  unfold pyParseAmount at h
  dsimp only at h
  split at h
  · exact absurd h (by simp)
  · split at h
    · cases h
      assumption
    · exact absurd h (by simp)

/-- Witness for C9 on the input "1000". -/
theorem parse_amount_positive_witness : 0 < (1000 : ℚ) :=
  parse_amount_positive "1000" 1000 (by decide)

/- ── C2: get_or_create_category idempotence ─────────────────────────────── -/

/-- Scalar value of the lower-cased ASCII letter. -/
lemma charOfNat_toNat_add32 (n : ℕ) (h1 : 65 ≤ n) (h2 : n ≤ 90) :
    (Char.ofNat (n + 32)).toNat = n + 32 := by
  have hv : (n + 32).isValidChar := Or.inl (by omega)
  simp [Char.ofNat, hv, Char.ofNatAux, Char.toNat, UInt32.toNat,
    BitVec.toNat_ofNatLt]

/-- ASCII lower-casing is idempotent. -/
lemma pyCharLower_idem (c : Char) : pyCharLower (pyCharLower c) = pyCharLower c := by
  by_cases hc : 65 ≤ c.toNat ∧ c.toNat ≤ 90
  · have ht := charOfNat_toNat_add32 c.toNat hc.1 hc.2
    have h1 : pyCharLower c = Char.ofNat (c.toNat + 32) := by
      unfold pyCharLower
      rw [if_pos hc]
    rw [h1]
    unfold pyCharLower
    rw [if_neg (by rw [ht]; omega)]
  · have h1 : pyCharLower c = c := by
      unfold pyCharLower
      rw [if_neg hc]
    rw [h1]
    exact h1

/-- Lower-casing a string twice is the same as doing it once. -/
lemma pyLower_idem (s : String) : pyLower (pyLower s) = pyLower s := by
  show String.mk ((s.data.map pyCharLower).map pyCharLower) =
    String.mk (s.data.map pyCharLower)
  rw [List.map_map]
  exact congrArg String.mk
    (List.map_congr_left (fun c _ => by
      simp only [Function.comp_apply]
      exact pyCharLower_idem c))

/-- find? only looks at the predicate's values. -/
lemma find?_congr_pred {α : Type} (p q : α → Bool) (l : List α)
    (h : ∀ a, p a = q a) : l.find? p = l.find? q := by
  induction l with
  | nil => rfl
  | cons a t ih => simp only [List.find?, h a, ih]

/-- find? walks an append left to right. -/
lemma find?_append_of_none {α : Type} (p : α → Bool) (l₁ l₂ : List α)
    (h : l₁.find? p = none) : (l₁ ++ l₂).find? p = l₂.find? p := by
  induction l₁ with
  | nil => rfl
  | cons a t ih =>
      rw [List.find?_cons] at h
      cases hp : p a with
      | true => rw [hp] at h; cases h
      | false =>
          rw [hp] at h
          simp only [List.cons_append, List.find?_cons, hp]
          exact ih h

/-- Counterexample to C2: "brick" and " brick" differ only in surrounding
whitespace, yet after get_or_create_category("brick") has created the row,
get_or_create_category(" brick") misses the case-insensitive lookup (which
does not trim) and its insert of the trimmed name "brick" violates the
unique constraint on categories.name — the second call raises instead of
returning the same identifier. -/
theorem get_or_create_category_cex :
    get_or_create_category emptyDB "brick" =
      .ok ({ id := 1, name := "brick" },
           { emptyDB with categories := [{ id := 1, name := "brick" }],
                          nextCatId := 2 }) ∧
    get_or_create_category
      { emptyDB with categories := [{ id := 1, name := "brick" }],
                     nextCatId := 2 } " brick" = .error () :=
  ⟨rfl, rfl⟩

/-- C2 amended: for names that differ only in letter case and whose first
form carries no surrounding whitespace, get_or_create_category is idempotent
— the second call returns the same category identifier as the first and the
category set grows by at most one.  (With surrounding whitespace on the
later call's argument the lookup misses and the insert collides with the
unique name constraint, as the counterexample shows.) -/
theorem get_or_create_category_amended (st : DBState) (n₁ n₂ : String)
    (hcase : pyLower n₁ = pyLower n₂) (htrim : pyStrip n₁ = n₁) :
    ∃ c₁ st₁ c₂ st₂,
      get_or_create_category st n₁ = .ok (c₁, st₁) ∧
      get_or_create_category st₁ n₂ = .ok (c₂, st₂) ∧
      c₁.id = c₂.id ∧
      st₂.categories.length ≤ st.categories.length + 1 := by
  have hpred : (fun c : Category => pyLower c.name == pyLower n₂) =
      (fun c : Category => pyLower c.name == pyLower n₁) :=
    funext (fun a => by rw [hcase])
  cases hfind : get_category_by_name st n₁ with
  | some c =>
      have hfind2 : get_category_by_name st n₂ = some c := by
        unfold get_category_by_name at hfind ⊢
        rw [hpred]
        exact hfind
      refine ⟨c, st, c, st, ?_, ?_, rfl, by omega⟩
      · simp [get_or_create_category, hfind]
      · simp [get_or_create_category, hfind2]
  | none =>
      have hno : ∀ x ∈ st.categories,
          ¬((pyLower x.name == pyLower n₁) = true) := by
        intro x hx
        exact List.find?_eq_none.mp hfind x hx
      have hnm : pyLower (pyStrip n₁) = pyLower n₁ := by rw [htrim]
      have hany : (st.categories.any
          (fun c => c.name == pyLower (pyStrip n₁))) = false := by
        rw [List.any_eq_false]
        intro x hx hceq
        apply hno x hx
        have hxn : x.name = pyLower (pyStrip n₁) := eq_of_beq hceq
        rw [hxn, hnm, pyLower_idem]
        exact beq_self_eq_true (pyLower n₁)
      cases hcall1 : get_or_create_category st n₁ with
      | error e =>
          exfalso
          unfold get_or_create_category at hcall1
          rw [hfind] at hcall1
          simp only [hany] at hcall1
          cases hcall1
      | ok r =>
          have hr : r = ({ id := st.nextCatId, name := pyLower (pyStrip n₁) },
              r.2) ∧ r.2.categories =
                st.categories ++ [{ id := st.nextCatId,
                                    name := pyLower (pyStrip n₁) }] ∧
              r.2.nextCatId = st.nextCatId + 1 := by
            unfold get_or_create_category at hcall1
            rw [hfind] at hcall1
            simp only [hany] at hcall1
            simp only [Bool.false_eq_true, if_false] at hcall1
            cases hcall1
            exact ⟨rfl, rfl, rfl⟩
          have hfind2 : get_category_by_name r.2 n₂ =
              some { id := st.nextCatId, name := pyLower (pyStrip n₁) } := by
            unfold get_category_by_name
            rw [hpred, hr.2.1]
            rw [find?_append_of_none _ _ _ (by
              rw [List.find?_eq_none]
              exact hno)]
            have hcond : (pyLower (pyLower (pyStrip n₁)) == pyLower n₁) = true := by
              rw [hnm, pyLower_idem]
              exact beq_self_eq_true (pyLower n₁)
            simp only [List.find?_cons, hcond]
          refine ⟨r.1, r.2, ⟨st.nextCatId, pyLower (pyStrip n₁)⟩, r.2,
            ?_, ?_, ?_, ?_⟩
          · rfl
          · simp [get_or_create_category, hfind2]
          · rw [hr.1]
          · rw [hr.2.1]
            simp

/-- Witness for C2 amended: "Brick" then "brick" on the fresh database. -/
theorem get_or_create_category_amended_witness :
    ∃ c₁ st₁ c₂ st₂,
      get_or_create_category emptyDB "Brick" = .ok (c₁, st₁) ∧
      get_or_create_category st₁ "brick" = .ok (c₂, st₂) ∧
      c₁.id = c₂.id ∧
      st₂.categories.length ≤ emptyDB.categories.length + 1 :=
  get_or_create_category_amended emptyDB "Brick" "brick" (by decide) (by decide)

/- ── C7: parse_message error behaviour ──────────────────────────────────── -/

/-- Successful bind in the Except monad factors through a successful first
step. -/
lemma except_bind_ok {α β : Type} (x : Except Unit α) (f : α → Except Unit β)
    (b : β) (h : (x >>= f) = .ok b) : ∃ a, x = .ok a ∧ f a = .ok b := by
  cases x with
  | error e => simp [Bind.bind, Except.bind] at h
  | ok a => exact ⟨a, rfl, h⟩

/-- Counterexample to C7: a failing classifier call (the OpenAI request is
not wrapped in any try/except) propagates an exception out of parse_message
instead of producing the synthetic unrecognized item. -/
theorem parse_message_propagates_cex :
    parse_message ClassifierOutcome.failure = .error () := rfl

/-- C7 amended: parse_message maps an unparseable classifier payload
(JSONDecodeError) to the single synthetic unrecognized item and every list
it does return is non-empty; however a failing classifier call propagates
its exception, and so does output that decodes to JSON of unexpected shape
(for instance a bare number), because only json.JSONDecodeError is caught. -/
theorem parse_message_amended :
    parse_message ClassifierOutcome.failure = .error () ∧
    parse_message (ClassifierOutcome.output none) = .ok [synthUnknown] ∧
    parse_message (ClassifierOutcome.output (some (.num 5))) = .error () ∧
    (∀ (d : JsonVal) (l : List ParsedExpense),
      parse_message (ClassifierOutcome.output (some d)) = .ok l → l ≠ []) := by
  refine ⟨rfl, rfl, rfl, ?_⟩
  intro d l h
  unfold parse_message at h
  obtain ⟨entries, _, h2⟩ := except_bind_ok _ _ _ h
  obtain ⟨items, _, h3⟩ := except_bind_ok _ _ _ h2
  have h4 : (if items.isEmpty then [synthUnknown] else items) = l :=
    Except.ok.inj h3
  cases h4
  cases items with
  | nil => simp
  | cons a t => simp

/-- Witness for C7 amended: the empty JSON array comes back as the single
synthetic unrecognized item, a non-empty list. -/
theorem parse_message_amended_witness :
    ([synthUnknown] : List ParsedExpense) ≠ [] :=
  parse_message_amended.2.2.2 (JsonVal.arr []) [synthUnknown] rfl

/- ── C6: the intake loop of handle_message ──────────────────────────────── -/

/-- A dynamic equality test against a string literal succeeding pins down
the JSON value. -/
lemma jsonEqStr_eq (v : JsonVal) (s : String) (h : jsonEqStr v s = true) :
    v = .str s := by
  cases v <;> simp_all [jsonEqStr]

/-- Shape of a successful add_expense: the record is appended as passed (in
particular with the given flag) and nothing else changes. -/
lemma add_expense_ok_shape (st : DBState) (cid : Nat) (amt : ℚ) (uid : Int)
    (d : Option JsonVal) (fl : Bool) (e : Expense) (st' : DBState)
    (h : add_expense st cid amt uid d fl = .ok (e, st')) :
    e = ⟨st.nextExpId, cid, amt, d, uid, fl⟩ ∧
    st'.expenses = st.expenses ++ [e] ∧
    st'.categories = st.categories ∧
    st'.foremanTxs = st.foremanTxs := by
  unfold add_expense at h
  by_cases hany : (st.categories.any (fun c => c.id == cid)) = true
  · simp only [hany, if_true] at h
    cases h
    exact ⟨rfl, rfl, rfl, rfl⟩
  · simp only [Bool.not_eq_true] at hany
    simp [hany] at h

/-- A successful add_expense exists whenever the category row is present. -/
lemma add_expense_ok_of_mem (st : DBState) (c : Category)
    (hc : c ∈ st.categories) (amt : ℚ) (uid : Int) (d : Option JsonVal)
    (fl : Bool) :
    add_expense st c.id amt uid d fl =
      .ok (⟨st.nextExpId, c.id, amt, d, uid, fl⟩,
           { st with expenses := st.expenses ++
                       [⟨st.nextExpId, c.id, amt, d, uid, fl⟩],
                     nextExpId := st.nextExpId + 1 }) := by
  have hany : (st.categories.any (fun cc => cc.id == c.id)) = true :=
    List.any_eq_true.mpr ⟨c, hc, by simp⟩
  simp [add_expense, hany]

/-- A successful get_or_create_category returns a row of the resulting
category table and leaves the other tables untouched. -/
lemma get_or_create_category_ok_shape (st : DBState) (s : String)
    (c : Category) (st₁ : DBState)
    (h : get_or_create_category st s = .ok (c, st₁)) :
    c ∈ st₁.categories ∧ st₁.expenses = st.expenses ∧
    st₁.foremanTxs = st.foremanTxs ∧ st₁.nextExpId = st.nextExpId := by
  unfold get_or_create_category at h
  cases hfind : get_category_by_name st s with
  | some c0 =>
      rw [hfind] at h
      cases h
      refine ⟨?_, rfl, rfl, rfl⟩
      unfold get_category_by_name at hfind
      exact List.mem_of_find?_eq_some hfind
  | none =>
      rw [hfind] at h
      by_cases hany : (st.categories.any
          (fun cc => cc.name == pyLower (pyStrip s))) = true
      · simp [hany] at h
      · simp only [Bool.not_eq_true] at hany
        simp only [hany, Bool.false_eq_true, if_false] at h
        cases h
        exact ⟨by simp, rfl, rfl, rfl⟩

/-- C6: in the intake loop of handle_message, an expense item missing its
amount or its category is skipped, a foreman_give item missing its amount is
skipped, an unrecognized item causes no mutation, a skipped item does not
fail the rest of the batch, a complete expense item is appended through
get_or_create_category and add_expense with the foreman flag unset, and a
complete foreman_give item is appended through add_foreman_transaction. -/
theorem intake_loop_behavior :
    (∀ (st : DBState) (uid : Int) (p : ParsedExpense),
      jsonEqStr p.type "expense" = true →
      (p.amount = none ∨ p.category = none) →
      applyParsedItem st uid p = .ok st) ∧
    (∀ (st : DBState) (uid : Int) (p : ParsedExpense),
      jsonEqStr p.type "foreman_give" = true → p.amount = none →
      applyParsedItem st uid p = .ok st) ∧
    (∀ (st : DBState) (uid : Int) (p : ParsedExpense),
      jsonEqStr p.type "expense" = false →
      jsonEqStr p.type "foreman_give" = false →
      applyParsedItem st uid p = .ok st) ∧
    (∀ (st st₁ : DBState) (uid : Int) (p : ParsedExpense) (amt : ℚ)
       (s : String) (c : Category),
      jsonEqStr p.type "expense" = true → p.amount = some amt →
      p.category = some (.str s) →
      get_or_create_category st s = .ok (c, st₁) →
      ∃ st₂, applyParsedItem st uid p = .ok st₂ ∧
        st₂.expenses = st₁.expenses ++
          [⟨st₁.nextExpId, c.id, amt, p.description, uid, false⟩] ∧
        st₂.foremanTxs = st₁.foremanTxs) ∧
    (∀ (st : DBState) (uid : Int) (p : ParsedExpense) (amt : ℚ),
      jsonEqStr p.type "foreman_give" = true → p.amount = some amt →
      applyParsedItem st uid p =
        .ok (add_foreman_transaction st amt uid p.description).2 ∧
      (add_foreman_transaction st amt uid p.description).2.foremanTxs =
        st.foremanTxs ++ [⟨st.nextTxId, amt, p.description, uid⟩] ∧
      (add_foreman_transaction st amt uid p.description).2.expenses =
        st.expenses) ∧
    (∀ (st : DBState) (uid : Int) (p : ParsedExpense)
       (rest : List ParsedExpense),
      applyParsedItem st uid p = .ok st →
      applyLoop uid st (p :: rest) = applyLoop uid st rest) := by
  refine ⟨?_, ?_, ?_, ?_, ?_, ?_⟩
  · intro st uid p ht hmiss
    rcases hmiss with hm | hm
    · cases hcat : p.category <;> simp [applyParsedItem, ht, hm, hcat]
    · cases hamt : p.amount <;> simp [applyParsedItem, ht, hm, hamt]
  · intro st uid p ht hm
    have hv := jsonEqStr_eq _ _ ht
    have he : jsonEqStr p.type "expense" = false := by
      rw [hv]
      rfl
    simp [applyParsedItem, he, ht, hm]
  · intro st uid p h1 h2
    simp [applyParsedItem, h1, h2]
  · intro st st₁ uid p amt s c ht ha hc hgoc
    have hmem := (get_or_create_category_ok_shape st s c st₁ hgoc).1
    have hadd := add_expense_ok_of_mem st₁ c hmem amt uid p.description false
    obtain ⟨e2, st₂, hpair⟩ :
        ∃ e2 st₂, add_expense st₁ c.id amt uid p.description false =
          .ok (e2, st₂) := ⟨_, _, hadd⟩
    have hsh := add_expense_ok_shape _ _ _ _ _ _ _ _ hpair
    refine ⟨st₂, ?_, ?_, hsh.2.2.2⟩
    · simp only [applyParsedItem, ht, if_true, ha, hc]
      rw [hgoc]
      simp only [Bind.bind, Except.bind]
      rw [hpair]
    · rw [hsh.2.1, hsh.1]
  · intro st uid p amt ht ha
    have hv := jsonEqStr_eq _ _ ht
    have he : jsonEqStr p.type "expense" = false := by
      rw [hv]
      rfl
    exact ⟨by simp [applyParsedItem, he, ht, ha], rfl, rfl⟩
  · intro st uid p rest h
    simp [applyLoop, h]

/-- Database obtained by creating the single category "sand". -/
def sandDB : DBState :=
  { emptyDB with categories := [⟨1, "sand"⟩], nextCatId := 2 }

/-- Witness for C6: each conjunct applied at a concrete classified item. -/
theorem intake_loop_behavior_witness :
    applyParsedItem emptyDB 7 ⟨.str "expense", none, none, none⟩ =
      .ok emptyDB ∧
    applyParsedItem emptyDB 7 ⟨.str "foreman_give", none, none, none⟩ =
      .ok emptyDB ∧
    applyParsedItem emptyDB 7 ⟨.str "unknown", none, none, none⟩ =
      .ok emptyDB ∧
    (∃ st₂, applyParsedItem emptyDB 7
        ⟨.str "expense", some (.str "sand"), some 100, none⟩ = .ok st₂ ∧
      st₂.expenses = sandDB.expenses ++ [⟨1, 1, 100, none, 7, false⟩] ∧
      st₂.foremanTxs = sandDB.foremanTxs) ∧
    applyParsedItem emptyDB 7 ⟨.str "foreman_give", none, some 500, none⟩ =
      .ok (add_foreman_transaction emptyDB 500 7 none).2 ∧
    applyLoop 7 emptyDB [⟨.str "unknown", none, none, none⟩] =
      applyLoop 7 emptyDB [] := by
  refine ⟨?_, ?_, ?_, ?_, ?_, ?_⟩
  · exact intake_loop_behavior.1 emptyDB 7 _ rfl (Or.inl rfl)
  · exact intake_loop_behavior.2.1 emptyDB 7 _ rfl rfl
  · exact intake_loop_behavior.2.2.1 emptyDB 7 _ rfl rfl
  · have h := intake_loop_behavior.2.2.2.1 emptyDB sandDB 7
      ⟨.str "expense", some (.str "sand"), some 100, none⟩ 100 "sand"
      ⟨1, "sand"⟩ rfl rfl rfl (by rfl)
    exact h
  · exact (intake_loop_behavior.2.2.2.2.1 emptyDB 7
      ⟨.str "foreman_give", none, some 500, none⟩ 500 rfl rfl).1
  · exact intake_loop_behavior.2.2.2.2.2 emptyDB 7
      ⟨.str "unknown", none, none, none⟩ []
      (intake_loop_behavior.2.2.1 emptyDB 7
        ⟨.str "unknown", none, none, none⟩ rfl rfl)

/- ── C10: no handler ever sets is_foreman_expense ───────────────────────── -/

/-- One handle_message loop iteration only ever appends expenses whose
foreman flag is False. -/
lemma applyParsedItem_flag_pres (st st' : DBState) (uid : Int)
    (p : ParsedExpense) (h : applyParsedItem st uid p = .ok st')
    (hP : ∀ e ∈ st.expenses, e.is_foreman_expense = false) :
    ∀ e ∈ st'.expenses, e.is_foreman_expense = false := by
  unfold applyParsedItem at h
  split at h
  · split at h
    · split at h
      · obtain ⟨cs, hcs, h2⟩ := except_bind_ok _ _ _ h
        obtain ⟨es, hes, h3⟩ := except_bind_ok _ _ _ h2
        have h4 := Except.ok.inj h3
        have hge := get_or_create_category_ok_shape st _ cs.1 cs.2 hcs
        have hsh := add_expense_ok_shape cs.2 cs.1.id _ uid p.description
          false es.1 es.2 hes
        subst h4
        intro e he
        rw [hsh.2.1, hge.2.1] at he
        rcases List.mem_append.mp he with h5 | h5
        · exact hP e h5
        · rw [List.mem_singleton] at h5
          rw [h5, hsh.1]
      · simp at h
    · cases h
      exact hP
  · split at h
    · split at h
      · cases h
        exact hP
      · cases h
        exact hP
    · cases h
      exact hP

/-- One settle_description loop iteration only ever appends expenses whose
foreman flag is False. -/
lemma settleItem_flag_pres (st st' : DBState) (uid : Int) (text : String)
    (p : ParsedExpense) (h : settleItem st uid text p = .ok st')
    (hP : ∀ e ∈ st.expenses, e.is_foreman_expense = false) :
    ∀ e ∈ st'.expenses, e.is_foreman_expense = false := by
  unfold settleItem at h
  split at h
  · cases h
    exact hP
  · split at h
    · obtain ⟨cs, hcs, h2⟩ := except_bind_ok _ _ _ h
      obtain ⟨es, hes, h3⟩ := except_bind_ok _ _ _ h2
      have h4 := Except.ok.inj h3
      have hge := get_or_create_category_ok_shape st _ cs.1 cs.2 hcs
      have hsh := add_expense_ok_shape cs.2 cs.1.id _ uid _ false es.1 es.2 hes
      subst h4
      intro e he
      rw [hsh.2.1, hge.2.1] at he
      rcases List.mem_append.mp he with h5 | h5
      · exact hP e h5
      · rw [List.mem_singleton] at h5
        rw [h5, hsh.1]
    · simp at h

/-- The whole handle_message loop preserves the all-flags-False invariant. -/
lemma applyLoop_flag_pres (uid : Int) (items : List ParsedExpense) :
    ∀ st st' : DBState, applyLoop uid st items = .ok st' →
    (∀ e ∈ st.expenses, e.is_foreman_expense = false) →
    ∀ e ∈ st'.expenses, e.is_foreman_expense = false := by
  induction items with
  | nil =>
      intro st st' h hP
      cases h
      exact hP
  | cons p rest ih =>
      intro st st' h hP
      unfold applyLoop at h
      cases hstep : applyParsedItem st uid p with
      | error e => rw [hstep] at h; simp at h
      | ok st1 =>
          rw [hstep] at h
          exact ih st1 st' h (applyParsedItem_flag_pres st st1 uid p hstep hP)

/-- The whole settle_description loop preserves the invariant. -/
lemma settleLoop_flag_pres (uid : Int) (text : String)
    (items : List ParsedExpense) :
    ∀ st st' : DBState, settleLoop uid text st items = .ok st' →
    (∀ e ∈ st.expenses, e.is_foreman_expense = false) →
    ∀ e ∈ st'.expenses, e.is_foreman_expense = false := by
  induction items with
  | nil =>
      intro st st' h hP
      cases h
      exact hP
  | cons p rest ih =>
      intro st st' h hP
      unfold settleLoop at h
      cases hstep : settleItem st uid text p with
      | error e => rw [hstep] at h; simp at h
      | ok st1 =>
          rw [hstep] at h
          exact ih st1 st' h (settleItem_flag_pres st st1 uid text p hstep hP)

/-- handle_message (commit or rollback) preserves the invariant. -/
lemma handleMessageApply_flag_pres (st : DBState) (uid : Int)
    (items : List ParsedExpense)
    (hP : ∀ e ∈ st.expenses, e.is_foreman_expense = false) :
    ∀ e ∈ (handleMessageApply st uid items).expenses,
      e.is_foreman_expense = false := by
  unfold handleMessageApply
  cases hl : applyLoop uid st items with
  | error e => exact hP
  | ok st1 => exact applyLoop_flag_pres uid items st st1 hl hP

/-- settle_description (commit or rollback) preserves the invariant. -/
lemma settleApply_flag_pres (st : DBState) (uid : Int) (text : String)
    (items : List ParsedExpense)
    (hP : ∀ e ∈ st.expenses, e.is_foreman_expense = false) :
    ∀ e ∈ (settleApply st uid text items).expenses,
      e.is_foreman_expense = false := by
  unfold settleApply
  cases hl : settleLoop uid text st items with
  | error e => exact hP
  | ok st1 => exact settleLoop_flag_pres uid text items st st1 hl hP

/-- Amount edits never touch the foreman flag. -/
lemma update_flag_pres (st : DBState) (eid : Nat) (uid : Int) (amt : ℚ)
    (hP : ∀ e ∈ st.expenses, e.is_foreman_expense = false) :
    ∀ e ∈ (update_expense_amount st eid uid amt).2.expenses,
      e.is_foreman_expense = false := by
  unfold update_expense_amount
  cases hg : get_expense_by_id st eid uid with
  | none => exact hP
  | some e0 =>
      intro e he
      simp only [List.mem_map] at he
      obtain ⟨x, hx, hxe⟩ := he
      by_cases hc : (x.id == eid && x.telegram_user_id == uid) = true
      · rw [← hxe]
        simp only [hc, if_true]
        exact hP x hx
      · rw [← hxe]
        simp only [Bool.not_eq_true] at hc
        simp only [hc, Bool.false_eq_true, if_false]
        exact hP x hx

/-- Deletions never touch the foreman flag. -/
lemma delete_flag_pres (st : DBState) (eid : Nat) (uid : Int)
    (hP : ∀ e ∈ st.expenses, e.is_foreman_expense = false) :
    ∀ e ∈ (delete_expense st eid uid).2.expenses,
      e.is_foreman_expense = false := by
  unfold delete_expense
  cases hg : get_expense_by_id st eid uid with
  | none => exact hP
  | some e0 =>
      intro e he
      exact hP e (List.mem_of_mem_filter he)

/-- C10: on every database state reachable through the bot's handlers —
including the /settle foreman-settlement flow, which calls add_expense with
the flag left at its False default — every stored expense has
is_foreman_expense = False; crud.add_foreman_expense, the only operation
that would set the flag, is not among the reachable transitions because no
handler invokes it. -/
theorem handlers_never_set_foreman_flag (st : DBState) (h : ReachState st) :
    ∀ e ∈ st.expenses, e.is_foreman_expense = false := by
  induction h with
  | init => intro e he; simp [emptyDB] at he
  | msg st0 uid items _ ih => exact handleMessageApply_flag_pres st0 uid items ih
  | settle st0 uid text items _ ih =>
      exact settleApply_flag_pres st0 uid text items ih
  | edit st0 eid uid amt _ ih => exact update_flag_pres st0 eid uid amt ih
  | del st0 eid uid _ ih => exact delete_flag_pres st0 eid uid ih

/-- Witness for C10: a state reached by one free-form message that records
the expense "sand 100" for user 7; the stored expense has the flag False. -/
theorem handlers_never_set_foreman_flag_witness :
    Expense.is_foreman_expense ⟨1, 1, 100, none, 7, false⟩ = false :=
  handlers_never_set_foreman_flag
    (handleMessageApply emptyDB 7
      [⟨.str "expense", some (.str "sand"), some 100, none⟩])
    (ReachState.msg emptyDB 7
      [⟨.str "expense", some (.str "sand"), some 100, none⟩] ReachState.init)
    ⟨1, 1, 100, none, 7, false⟩
    (by constructor)

/- ── C8: summary by category ────────────────────────────────────────────── -/

/-- A list pairwise-distinct under a projection admits at most one element
per projection value. -/
lemma pairwise_ne_inj {α β : Type} (f : α → β) :
    ∀ l : List α, l.Pairwise (fun a b => f a ≠ f b) →
    ∀ x ∈ l, ∀ y ∈ l, f x = f y → x = y := by
  intro l
  induction l with
  | nil =>
      intro _ x hx
      cases hx
  | cons a t ih =>
      intro h x hx y hy hxy
      rcases List.mem_cons.mp hx with rfl | hx'
      · rcases List.mem_cons.mp hy with rfl | hy'
        · rfl
        · exact absurd hxy ((List.pairwise_cons.mp h).1 y hy')
      · rcases List.mem_cons.mp hy with rfl | hy'
        · exact absurd hxy.symm ((List.pairwise_cons.mp h).1 x hx')
        · exact ih (List.pairwise_cons.mp h).2 x hx' y hy' hxy

/-- With pairwise-distinct ids, find? by id returns exactly the member row. -/
lemma find?_id_eq_some :
    ∀ cats : List Category, cats.Pairwise (fun a b => a.id ≠ b.id) →
    ∀ c ∈ cats, ∀ n : Nat, c.id = n →
      cats.find? (fun cc => cc.id == n) = some c := by
  intro cats
  induction cats with
  | nil =>
      intro _ c hc
      cases hc
  | cons a t ih =>
      intro h c hc n hn
      rcases List.mem_cons.mp hc with rfl | hc'
      · simp [List.find?_cons, hn]
      · have hne : a.id ≠ n := by
          rw [← hn]
          exact (List.pairwise_cons.mp h).1 c hc'
        have hfa : (a.id == n) = false := by
          simp [hne]
        simp only [List.find?_cons, hfa, Bool.false_eq_true, if_false]
        exact ih (List.pairwise_cons.mp h).2 c hc' n hn

/-- Key grouping identity: under the schema's uniqueness constraints, the
joined rows carrying category c's name are exactly the user's expenses that
reference c, each paired with that name. -/
lemma rows_filter_eq_aux (cats : List Category) (uid : Int) (c : Category)
    (hid : cats.Pairwise (fun a b => a.id ≠ b.id))
    (hname : cats.Pairwise (fun a b => a.name ≠ b.name))
    (hc : c ∈ cats) :
    ∀ l : List Expense,
    ((l.filter (fun e => e.telegram_user_id == uid)).filterMap
      (fun e => (cats.find? (fun cc => cc.id == e.category_id)).map
        (fun cc => (cc.name, e.amount)))).filter
          (fun r => r.1 == c.name) =
    (l.filter (fun e => e.telegram_user_id == uid &&
      e.category_id == c.id)).map (fun e => (c.name, e.amount)) := by
  intro l
  induction l with
  | nil => rfl
  | cons a t ih =>
      by_cases hu : (a.telegram_user_id == uid) = true
      · simp only [List.filter_cons, hu, Bool.true_and, if_true,
          List.filterMap_cons]
        cases hfind : cats.find? (fun cc => cc.id == a.category_id) with
        | none =>
            have hcid : (a.category_id == c.id) = false := by
              by_contra h'
              rw [Bool.not_eq_false, beq_iff_eq] at h'
              have h2 := List.find?_eq_none.mp hfind c hc
              rw [h', beq_self_eq_true] at h2
              exact h2 rfl
            simp only [Option.map_none', hcid, Bool.false_eq_true, if_false]
            exact ih
        | some cc =>
            have hpcc : (cc.id == a.category_id) = true := by
              have h0 := List.find?_some hfind
              exact h0
            have hmemcc : cc ∈ cats := List.mem_of_find?_eq_some hfind
            by_cases hnm : (cc.name == c.name) = true
            · have hcceq : cc = c :=
                pairwise_ne_inj Category.name cats hname cc hmemcc c hc
                  (beq_iff_eq.mp hnm)
              subst hcceq
              have hcid : (a.category_id == cc.id) = true := by
                rw [beq_iff_eq] at hpcc ⊢
                exact hpcc.symm
              simp only [Option.map_some', List.filter_cons, hnm, if_true,
                hcid, List.map_cons]
              rw [ih]
            · have hcid : (a.category_id == c.id) = false := by
                by_contra h'
                rw [Bool.not_eq_false, beq_iff_eq] at h'
                have hcc2 : cc = c := by
                  apply pairwise_ne_inj Category.id cats hid cc hmemcc c hc
                  rw [beq_iff_eq] at hpcc
                  rw [hpcc, h']
                rw [hcc2, beq_self_eq_true] at hnm
                exact hnm rfl
              simp only [Option.map_some', List.filter_cons, hnm,
                Bool.false_eq_true, if_false, hcid]
              exact ih
      · have hu' : (a.telegram_user_id == uid) = false := by
          rw [Bool.not_eq_true] at hu
          exact hu
        simp only [List.filter_cons, hu', Bool.false_and, Bool.false_eq_true,
          if_false]
        exact ih

/-- C8: get_expenses_summary lists, ordered by category name ascending and
without duplicates, exactly the categories having at least one expense of
the queried user — never a category whose only expenses belong to other
users, never a zero-filled category — each paired with the sum of that
user's expense amounts in it.  The hypotheses are the schema's primary-key
and unique-name constraints on the categories table. -/
theorem summary_by_category_correct (st : DBState) (uid : Int)
    (hid : st.categories.Pairwise (fun a b => a.id ≠ b.id))
    (hname : st.categories.Pairwise (fun a b => a.name ≠ b.name)) :
    ((get_expenses_summary st uid).map Prod.fst).Sorted (· ≤ ·) ∧
    ((get_expenses_summary st uid).map Prod.fst).Nodup ∧
    (∀ p ∈ get_expenses_summary st uid,
      ∃ c ∈ st.categories, p.1 = c.name ∧
        (∃ e ∈ st.expenses, e.telegram_user_id = uid ∧ e.category_id = c.id) ∧
        p.2 = ((st.expenses.filter (fun e =>
          e.telegram_user_id == uid && e.category_id == c.id)).map
            Expense.amount).sum) ∧
    (∀ c ∈ st.categories,
      (∃ e ∈ st.expenses, e.telegram_user_id = uid ∧ e.category_id = c.id) →
      (c.name, ((st.expenses.filter (fun e =>
        e.telegram_user_id == uid && e.category_id == c.id)).map
          Expense.amount).sum) ∈ get_expenses_summary st uid) := by
  have hEq : get_expenses_summary st uid =
      (List.insertionSort (fun a b : String => a ≤ b)
        ((summaryRows st uid).map Prod.fst).dedup).map
          (fun k => (k, (((summaryRows st uid).filter
            (fun r => r.1 == k)).map Prod.snd).sum)) := rfl
  have hperm := List.perm_insertionSort (fun a b : String => a ≤ b)
      ((summaryRows st uid).map Prod.fst).dedup
  have hfst : (get_expenses_summary st uid).map Prod.fst =
      List.insertionSort (fun a b : String => a ≤ b)
        ((summaryRows st uid).map Prod.fst).dedup := by
    rw [hEq, List.map_map]
    exact List.map_id _
  refine ⟨?_, ?_, ?_, ?_⟩
  · rw [hfst]
    exact List.sorted_insertionSort _ _
  · rw [hfst]
    exact hperm.nodup_iff.mpr (List.nodup_dedup _)
  · intro p hp
    rw [hEq] at hp
    obtain ⟨k, hk, hpk⟩ := List.mem_map.mp hp
    have hk3 : k ∈ (summaryRows st uid).map Prod.fst :=
      List.mem_dedup.mp (hperm.mem_iff.mp hk)
    obtain ⟨row, hrow, hrowk⟩ := List.mem_map.mp hk3
    unfold summaryRows at hrow
    obtain ⟨e, he, hfe⟩ := List.mem_filterMap.mp hrow
    obtain ⟨cc, hfind, hgcc⟩ := Option.map_eq_some'.mp hfe
    have hmemcc : cc ∈ st.categories := List.mem_of_find?_eq_some hfind
    have hpcc : (cc.id == e.category_id) = true := by
      have h0 := List.find?_some hfind
      exact h0
    have heu := List.mem_filter.mp he
    have hk4 : k = cc.name := by
      rw [← hrowk, ← hgcc]
    refine ⟨cc, hmemcc, ?_,
      ⟨e, heu.1, beq_iff_eq.mp heu.2, (beq_iff_eq.mp hpcc).symm⟩, ?_⟩
    · rw [← hpk]
      exact hk4
    · rw [← hpk]
      show (((summaryRows st uid).filter
        (fun r => r.1 == k)).map Prod.snd).sum = _
      rw [hk4]
      unfold summaryRows
      rw [rows_filter_eq_aux st.categories uid cc hid hname hmemcc
        st.expenses]
      rw [List.map_map]
      rfl
  · intro c hc hex
    obtain ⟨e, he, heu, hec⟩ := hex
    have hfind : st.categories.find? (fun cc => cc.id == e.category_id) =
        some c :=
      find?_id_eq_some st.categories hid c hc e.category_id hec.symm
    have hrow : (c.name, e.amount) ∈ summaryRows st uid := by
      unfold summaryRows
      apply List.mem_filterMap.mpr
      refine ⟨e, List.mem_filter.mpr ⟨he, ?_⟩, ?_⟩
      · rw [beq_iff_eq]
        exact heu
      · rw [hfind]
        rfl
    have hk2 : c.name ∈ List.insertionSort (fun a b : String => a ≤ b)
        ((summaryRows st uid).map Prod.fst).dedup :=
      hperm.mem_iff.mpr
        (List.mem_dedup.mpr (List.mem_map.mpr ⟨(c.name, e.amount), hrow, rfl⟩))
    rw [hEq]
    apply List.mem_map.mpr
    refine ⟨c.name, hk2, ?_⟩
    have hsum : (((summaryRows st uid).filter
        (fun r => r.1 == c.name)).map Prod.snd).sum =
        ((st.expenses.filter (fun e2 => e2.telegram_user_id == uid &&
          e2.category_id == c.id)).map Expense.amount).sum := by
      unfold summaryRows
      rw [rows_filter_eq_aux st.categories uid c hid hname hc st.expenses]
      rw [List.map_map]
      rfl
    rw [hsum]

/-- Witness for C8 at a concrete one-category, one-expense database. -/
theorem summary_by_category_correct_witness :
    ("кирпич", ((oneExpDB.expenses.filter (fun e =>
      e.telegram_user_id == (7 : Int) && e.category_id == 1)).map
        Expense.amount).sum) ∈ get_expenses_summary oneExpDB 7 :=
  (summary_by_category_correct oneExpDB 7 (by simp [oneExpDB])
      (by simp [oneExpDB])).2.2.2
    ⟨1, "кирпич"⟩ (by simp [oneExpDB])
    ⟨⟨1, 1, 100, none, 7, false⟩, by simp [oneExpDB], rfl, rfl⟩
